import Mathlib

/-!
Verification of the Overlay Coordination & Rendering Engine of the
`shadows-and-secrets` module, against a shallow embedding of its source.

Numeric values (JS `number`) are modelled as rationals (`ℚ`); the 32-bit
integer arithmetic of the string hash is modelled with an explicit
wrap-around on `ℤ`.  The trigonometric pseudo-random generator
(`Math.sin(seed) * 10000` fractional part, file
`src/domain/services/HealthObfuscator.ts`) is not exactly representable
over `ℚ`; it is abstracted as a parameter `rng : ℤ → ℚ`, about which
theorems assume at most its range property (values in `[0, 1)`), which the
JS fractional-part construction guarantees.
-/

namespace ShadowsAndSecrets

/-- JS `Math.round`: round half up, `Math.round x = ⌊x + 1/2⌋`. -/
def jsRound (x : ℚ) : ℤ := ⌊x + 1 / 2⌋

/-- Wrap an integer into the signed 32-bit range, as JS bitwise ops do. -/
def toInt32 (n : ℤ) : ℤ := (n + 2 ^ 31) % 2 ^ 32 - 2 ^ 31

/-- One step of `HealthObfuscator.hashString`:
`hash = ((hash << 5) - hash) + char; hash = hash & hash;`.
`hash << 5` coerces to int32; the subtraction and the addition of the
code unit are exact in a JS double; `hash & hash` coerces to int32. -/
def hashStep (hash : ℤ) (c : ℕ) : ℤ := toInt32 (toInt32 (hash * 32) - hash + c)

/-- `HealthObfuscator.hashString`: fold `hashStep` over the string's code
units starting from 0, then `Math.abs`. -/
def hashString (s : String) : ℤ :=
  ((s.data.map Char.toNat).foldl hashStep 0).natAbs

/-- Raw health figures of the actor backing a token, as read through the
actor adapter (`Actor.health` / `maxHealth` / `tempHealth`), together
with the dynamically-looked-up passive perception
(`(actor as any).passivePerception ?? system.skills.perception.passive`),
`none` when that chain yields `undefined`. -/
structure ActorHealthData where
  health : ℚ
  maxHealth : ℚ
  tempHealth : ℚ
  passivePerception : Option ℚ

/-- The token fields the coordination engine reads (domain entity `Token`;
every getter is a plain delegation to the adapter).  `actor` models the
`actorId` → adapter → `Actor` resolution: `none` when the token has no
actor id or the adapter factory returns nothing. -/
structure Token where
  id : String
  visible : Bool
  hidden : Bool
  isControlledByCurrentUser : Bool
  isOwnedByCurrentUser : Bool
  disposition : ℤ
  trackingReferenceNumber : String
  actor : Option ActorHealthData

/-- Result record of `HealthObfuscator.obfuscateHealth`. -/
structure ObfuscatedHealth where
  health : ℚ
  maxHealth : ℚ
  tempHealth : ℚ
  accuracy : ℚ
deriving DecidableEq

/-- The three figures produced by `applyVariance`. -/
structure HealthTriple where
  health : ℚ
  maxHealth : ℚ
  tempHealth : ℚ
deriving DecidableEq

/-- `HealthObfuscator.getExactHealth`: raw actor figures with
`accuracy = 1`; defaults `0 / 1 / 0` when no actor is resolvable. -/
def getExactHealth (token : Token) : ObfuscatedHealth :=
  match token.actor with
  | some a => ⟨a.health, a.maxHealth, a.tempHealth, 1⟩
  | none => ⟨0, 1, 0, 1⟩

/-- `HealthObfuscator.getPassivePerception`: 10 (`BASE_PERCEPTION`) when
no actor or no perception datum is available, otherwise the looked-up
value clamped below by 0 (`Math.max(0, passivePerception)`). -/
def getPassivePerception (token : Token) : ℚ :=
  match token.actor with
  | none => 10
  | some a => max 0 (a.passivePerception.getD 10)

/-- `HealthObfuscator.calculateVariance`:
`clamp(BASE_VARIANCE − (p − BASE_PERCEPTION) · 0.02, MIN_VARIANCE, MAX_VARIANCE)`
with `BASE_VARIANCE = 0.3`, `BASE_PERCEPTION = 10`, bounds `0` and `2`. -/
def calculateVariance (passivePerception : ℚ) : ℚ :=
  max 0 (min 2 (3 / 10 - (passivePerception - 10) * (2 / 100)))

/-- Seed of `applyVariance`: `Math.floor(Date.now() / 60000) + hashString(tokenId)`. -/
def seedOf (now : ℤ) (tokenId : String) : ℤ :=
  Int.fdiv now 60000 + hashString tokenId

/-- A base multiplier of `applyVariance`:
`1 − variance + seededRandom(seed) · variance · 2`. -/
def baseMultiplier (rng : ℤ → ℚ) (seed : ℤ) (variance : ℚ) : ℚ :=
  1 - variance + rng seed * variance * 2

/-- A small jitter of `applyVariance`:
`(seededRandom(seed) · 2 − 1) · 0.05`. -/
def smallJitter (rng : ℤ → ℚ) (seed : ℤ) : ℚ :=
  (rng seed * 2 - 1) * (5 / 100)

/-- Final clamping lines of `applyVariance`: `health ← max(0, ·)`,
`tempHealth ← max(0, ·)`, `maxHealth ← max(1, ·)`, then raise
`maxHealth` to `health` when the rounding left `health > maxHealth`. -/
def clampHealthTriple (roundedHealth roundedMaxHealth roundedTempHealth : ℤ) : HealthTriple :=
  ⟨((max 0 roundedHealth : ℤ) : ℚ),
   ((if max 0 roundedHealth > max 1 roundedMaxHealth then max 0 roundedHealth
     else max 1 roundedMaxHealth : ℤ) : ℚ),
   ((max 0 roundedTempHealth : ℤ) : ℚ)⟩

/-- `HealthObfuscator.applyVariance`.  `rng` abstracts `seededRandom`,
`now` is `Date.now()` in milliseconds.  The code's optional `tokenId`
with falsy-default hash 0 coincides with always hashing, because
`hashString "" = 0`. -/
def applyVariance (rng : ℤ → ℚ) (now : ℤ)
    (actualHealth actualMaxHealth actualTempHealth variance : ℚ)
    (tokenId : String) : HealthTriple :=
  clampHealthTriple
    (jsRound (actualHealth *
      (baseMultiplier rng (seedOf now tokenId) variance + smallJitter rng (seedOf now tokenId + 3))))
    (jsRound (actualMaxHealth *
      (baseMultiplier rng (seedOf now tokenId + 1) variance + smallJitter rng (seedOf now tokenId + 4))))
    (jsRound (actualTempHealth *
      (baseMultiplier rng (seedOf now tokenId + 2) variance + smallJitter rng (seedOf now tokenId + 5))))

/-- `HealthObfuscator.obfuscateHealth`.  `observerToken` models the result
of `getObserverToken()` (first controlled, else first owned token of the
current user, else `none`). -/
def obfuscateHealth (rng : ℤ → ℚ) (now : ℤ) (targetToken : Token)
    (isGM : Bool) (observerToken : Option Token) : ObfuscatedHealth :=
  if isGM || targetToken.isOwnedByCurrentUser then
    getExactHealth targetToken
  else
    match observerToken with
    | none => getExactHealth targetToken
    | some observer =>
      let variance := calculateVariance (getPassivePerception observer)
      let accuracy := 1 - variance
      let exactHealth := getExactHealth targetToken
      let t := applyVariance rng now
        exactHealth.health exactHealth.maxHealth exactHealth.tempHealth variance targetToken.id
      ⟨t.health, t.maxHealth, t.tempHealth, accuracy⟩

/-- `OverlayCoordinatorHelper.determineTargetTokens`: the `switch` on the
target scope, taken as the raw scope string so that the `default` branch
(unknown scope → visible) is part of the model. -/
def determineTargetTokens (allTokens : List Token) (targetScope : String)
    (previewToken : Option Token) : List Token :=
  if targetScope = "visible" then
    allTokens.filter (fun t => t.visible)
  else if targetScope = "visible-and-not-hidden" then
    allTokens.filter (fun t => t.visible && !t.hidden)
  else if targetScope = "controlled" then
    allTokens.filter (fun t => t.isControlledByCurrentUser)
  else if targetScope = "owned" then
    allTokens.filter (fun t => t.isOwnedByCurrentUser && t.visible && !t.hidden)
  else if targetScope = "all" then
    allTokens
  else if targetScope = "non-controlled" then
    allTokens.filter (fun t => t.visible && !t.hidden && !t.isControlledByCurrentUser)
  else if targetScope = "preview" then
    match previewToken with
    | some t => [t]
    | none => []
  else
    allTokens.filter (fun t => t.visible)

/-- Disposition constants (`DISPOSITION` in `TokenDisposition.ts`). -/
def dispositionHostile : ℤ := -1

def dispositionNeutral : ℤ := 0

def dispositionFriendly : ℤ := 1

def dispositionSecret : ℤ := -2

/-- The `token-info` branch of `OverlayCoordinatorHelper.buildContextOptions`:
the tracking text placed into the render context for a target token. -/
def buildTokenInfoText (targetToken : Token) : String :=
  if targetToken.disposition = dispositionFriendly then ""
  else
    (if targetToken.disposition = dispositionSecret then "Contact"
     else if targetToken.disposition = dispositionNeutral then "Bogey"
     else if targetToken.disposition = dispositionHostile then "Bandit"
     else "") ++ " " ++ targetToken.trackingReferenceNumber

/-- `TokenInfoRenderer.render`, reduced to its observable painting
decision: `none` when nothing is painted (falsy tracking text, or no
styling configuration), else `some` of the text painted. -/
def renderTokenInfo (trackingText : String) (hasStyleConfig : Bool) : Option String :=
  if trackingText = "" then none
  else if !hasStyleConfig then none
  else some trackingText

/-- ASCII lower-casing of one character, modelling JS `toLowerCase()` on
the key names the module uses. -/
def charToLower (c : Char) : Char :=
  if 'A' ≤ c ∧ c ≤ 'Z' then Char.ofNat (c.toNat + 32) else c

/-- JS `String.prototype.toLowerCase()` on ASCII key strings. -/
def strToLower (s : String) : String := ⟨s.data.map charToLower⟩

/-- The `keyPress` trigger value of an overlay definition: absent
(`undefined`), a bare boolean, or a `KeyPressTriggerConfig` whose `keys`
array may itself be absent. -/
inductive KeyPressTrigger where
  | absent : KeyPressTrigger
  | flag : Bool → KeyPressTrigger
  | config : Option (List String) → KeyPressTrigger
deriving DecidableEq

/-- The overlay-definition fields `OverlayRegistry.filterByKeyTrigger`
reads. -/
structure OverlayDefinition where
  id : String
  keyPress : KeyPressTrigger
deriving DecidableEq

/-- `OverlayRegistry.filterByKeyTrigger`: keep the registered definitions
whose `keyPress` trigger is an object with a non-empty `keys` array
containing the lowercased query key. -/
def filterByKeyTrigger (registry : List OverlayDefinition)
    (triggerKey : String) : List OverlayDefinition :=
  let normalisedKey := strToLower triggerKey
  registry.filter fun overlay =>
    match overlay.keyPress with
    | .config (some keys) => !keys.isEmpty && keys.contains normalisedKey
    | _ => false

/-! ### Overlay Rendering Service — instance map (part of `OverlayRenderingService`) -/

/-- JS `String.prototype.startsWith`. -/
def strStartsWith (s pre : String) : Bool :=
  s.data.take pre.data.length == pre.data

/-- `Map.get` on a string-keyed JS map, modelled as an association list
with unique keys. -/
def mapGet (m : List (String × Nat)) (k : String) : Option Nat :=
  (m.find? (fun p => p.1 == k)).map (fun p => p.2)

/-- `Map.delete` on the instance map. -/
def mapDelete (m : List (String × Nat)) (k : String) : List (String × Nat) :=
  m.filter (fun p => !(p.1 == k))

/-- The `OverlayRenderingService` state observed by the drawable
lifecycle operations: initialisation flag, the overlay types that are
registered with a paint strategy, the per-instance-key drawable map
(drawables as opaque ids), and the id supply for fresh drawables. -/
structure RenderState where
  isInitialised : Bool
  registeredTypes : List String
  overlayInstances : List (String × Nat)
  nextGraphicsId : Nat
deriving DecidableEq

/-- `OverlayRenderingService.createInstanceKey`:
`tokenId + INSTANCE_KEY_SEPARATOR + overlayTypeId` with separator `"-"`. -/
def createInstanceKey (tokenId overlayTypeId : String) : String :=
  tokenId ++ "-" ++ overlayTypeId

/-- `OverlayRenderingService.getOrCreateGraphicsInstance`: reuse the
drawable stored under the key, else create a fresh one and store it. -/
def getOrCreateGraphicsInstance (st : RenderState) (instanceKey : String) :
    RenderState × Nat :=
  match mapGet st.overlayInstances instanceKey with
  | some g => (st, g)
  | none =>
    ({ st with
        overlayInstances := st.overlayInstances ++ [(instanceKey, st.nextGraphicsId)],
        nextGraphicsId := st.nextGraphicsId + 1 },
      st.nextGraphicsId)

/-- `OverlayRenderingService.renderTokenOverlay` restricted to its
effect on the instance map: deferred when uninitialised, short-circuited
(error caught) for an unregistered overlay type, else get-or-create the
drawable for the instance key and repaint it. -/
def renderTokenOverlay (st : RenderState) (tokenId overlayTypeId : String) :
    RenderState :=
  if !st.isInitialised then st
  else if !(st.registeredTypes.contains overlayTypeId) then st
  else (getOrCreateGraphicsInstance st (createInstanceKey tokenId overlayTypeId)).1

/-- `OverlayRenderingService.findTokenOverlayKeys`: the stored keys that
start with `tokenId + "-"`. -/
def findTokenOverlayKeys (st : RenderState) (tokenId : String) : List String :=
  (st.overlayInstances.map (fun p => p.1)).filter
    (fun key => strStartsWith key (tokenId ++ "-"))

/-- `OverlayRenderingService.clearAllTokenOverlays`: destroy and remove
every instance-map entry whose key is found by `findTokenOverlayKeys`. -/
def clearAllTokenOverlays (st : RenderState) (tokenId : String) : RenderState :=
  (findTokenOverlayKeys st tokenId).foldl
    (fun s key =>
      match mapGet s.overlayInstances key with
      | some _ => { s with overlayInstances := mapDelete s.overlayInstances key }
      | none => s)
    st

/-- Number of instance-map entries stored under a key. -/
def countKey (m : List (String × Nat)) (k : String) : Nat :=
  (m.filter (fun p => p.1 == k)).length

/-! ### Keyboard Coordinator (from `KeyboardCoordinator.ts`) -/

/-- Per-key overlay cache `tokenId → set of overlay ids`
(JS `Map<string, Set<string>>`). -/
abbrev OverlayCache := List (String × Finset String)

/-- `Map.get` on an overlay cache. -/
def cacheGet (c : OverlayCache) (k : String) : Option (Finset String) :=
  (c.find? (fun p => p.1 == k)).map (fun p => p.2)

/-- `Map.set` on an overlay cache. -/
def cacheSet (c : OverlayCache) (k : String) (v : Finset String) : OverlayCache :=
  if c.any (fun p => p.1 == k) then
    c.map (fun p => if p.1 == k then (k, v) else p)
  else c ++ [(k, v)]

/-- `KeyboardCoordinator.collectUniqueOverlayTypes` (and its K-key twin):
the union of all overlay-id sets in a cache. -/
def collectUniqueOverlayTypes (c : OverlayCache) : Finset String :=
  c.foldl (fun acc p => acc ∪ p.2) ∅

/-- `KeyboardCoordinator` state: the pressed-key set and the two
per-gesture caches. -/
structure KCState where
  activeKeys : List String
  mKeyOverlaysCache : OverlayCache
  kKeyOverlaysCache : OverlayCache

/-- Environment responses consumed during one scope-processing pass:
`mFiltered`/`kFiltered` are the ids `overlayRegistry.filterByKeyTrigger`
returns for the key, and `mGroups`/`kGroups` the
`(targetTokens, overlays)` groups `processOverlaysByScope` reports
(tokens and overlays by id). -/
structure KeyEnv where
  mFiltered : List String
  mGroups : List (List String × List String)
  kFiltered : List String
  kGroups : List (List String × List String)

/-- `KeyboardCoordinator.trackMKeyOverlays` / `trackKKeyOverlays`: merge
each target token's entry with the group's overlay-id set, skipping
empty sets. -/
def trackOverlays (cache : OverlayCache) (targetTokens : List String)
    (overlays : List String) : OverlayCache :=
  let overlayIds := overlays.toFinset
  targetTokens.foldl
    (fun c tokenId =>
      if overlayIds = ∅ then c
      else cacheSet c tokenId ((cacheGet c tokenId).getD ∅ ∪ overlayIds))
    cache

/-- `KeyboardCoordinator.processMKeyOverlays`: nothing when no overlay is
registered for the key; else clear the M cache and re-track every group
reported by the helper. -/
def processMKeyOverlays (st : KCState) (env : KeyEnv) : KCState :=
  if env.mFiltered.isEmpty then st
  else
    { st with mKeyOverlaysCache :=
        env.mGroups.foldl (fun c g => trackOverlays c g.1 g.2) [] }

/-- `KeyboardCoordinator.processKKeyOverlays`. -/
def processKKeyOverlays (st : KCState) (env : KeyEnv) : KCState :=
  if env.kFiltered.isEmpty then st
  else
    { st with kKeyOverlaysCache :=
        env.kGroups.foldl (fun c g => trackOverlays c g.1 g.2) [] }

/-- `updateOverlays` stale-hide step for the M cache: when the M key is
not pressed but its cache is non-empty, hide the cached union and clear
the cache. -/
def hideStaleM (st : KCState) : KCState × Finset String :=
  if "m" ∉ st.activeKeys ∧ st.mKeyOverlaysCache ≠ [] then
    ({ st with mKeyOverlaysCache := [] },
      collectUniqueOverlayTypes st.mKeyOverlaysCache)
  else (st, ∅)

/-- `updateOverlays` stale-hide step for the K cache. -/
def hideStaleK (st : KCState) : KCState × Finset String :=
  if "k" ∉ st.activeKeys ∧ st.kKeyOverlaysCache ≠ [] then
    ({ st with kKeyOverlaysCache := [] },
      collectUniqueOverlayTypes st.kKeyOverlaysCache)
  else (st, ∅)

/-- `KeyboardCoordinator.updateOverlays`: hide stale caches, stop when no
key is pressed, else process the pressed keys.  The second component is
the set of overlay types hidden. -/
def updateOverlays (st : KCState) (env : KeyEnv) : KCState × Finset String :=
  let isM := "m" ∈ st.activeKeys
  let isK := "k" ∈ st.activeKeys
  let s1 := hideStaleM st
  let s2 := hideStaleK s1.1
  let hidden := s1.2 ∪ s2.2
  if s2.1.activeKeys.isEmpty then (s2.1, hidden)
  else
    let s3 := if isM then processMKeyOverlays s2.1 env else s2.1
    let s4 := if isK then processKKeyOverlays s3 env else s3
    (s4, hidden)

/-- `KeyboardCoordinator.handleKeyDown`: untracked keys are ignored, a
repeat while held is ignored, else mark pressed and run
`updateOverlays`.  The second component is the set of overlay types
hidden during the call. -/
def handleKeyDown (st : KCState) (key : String) (env : KeyEnv) :
    KCState × Finset String :=
  let normalisedKey := strToLower key
  if normalisedKey ≠ "m" ∧ normalisedKey ≠ "k" then (st, ∅)
  else if normalisedKey ∈ st.activeKeys then (st, ∅)
  else updateOverlays { st with activeKeys := st.activeKeys ++ [normalisedKey] } env

/-- `KeyboardCoordinator.handleKeyUp`: ignored for a key not marked
active; else unmark it and, per key, hide the cached overlay-type union
and clear that key's cache when non-empty. -/
def handleKeyUp (st : KCState) (key : String) : KCState × Finset String :=
  let normalisedKey := strToLower key
  if normalisedKey ∉ st.activeKeys then (st, ∅)
  else
    let st1 := { st with activeKeys := st.activeKeys.erase normalisedKey }
    let p2 :=
      if normalisedKey = "m" ∧ st1.mKeyOverlaysCache ≠ [] then
        ({ st1 with mKeyOverlaysCache := [] },
          collectUniqueOverlayTypes st1.mKeyOverlaysCache)
      else (st1, (∅ : Finset String))
    if normalisedKey = "k" ∧ p2.1.kKeyOverlaysCache ≠ [] then
      ({ p2.1 with kKeyOverlaysCache := [] },
        p2.2 ∪ collectUniqueOverlayTypes p2.1.kKeyOverlaysCache)
    else p2

/-! ### Helper lemmas -/

lemma clampHealthTriple_ok (a b c : ℤ) :
    0 ≤ (clampHealthTriple a b c).health ∧
    (clampHealthTriple a b c).health ≤ (clampHealthTriple a b c).maxHealth ∧
    1 ≤ (clampHealthTriple a b c).maxHealth ∧
    0 ≤ (clampHealthTriple a b c).tempHealth := by
  dsimp only [clampHealthTriple]
  refine ⟨?_, ?_, ?_, ?_⟩
  · exact_mod_cast le_max_left 0 a
  · have h2 : (max 0 a : ℤ) ≤
        (if max 0 a > max 1 b then max 0 a else max 1 b) := by
      split
      · exact le_refl _
      · next h => exact le_of_not_lt h
    exact_mod_cast h2
  · have h3 : (1 : ℤ) ≤ (if max 0 a > max 1 b then max 0 a else max 1 b) := by
      split
      · next h => exact le_of_lt (lt_of_le_of_lt (le_max_left 1 b) h)
      · exact le_max_left 1 b
    exact_mod_cast h3
  · exact_mod_cast le_max_left 0 c

lemma applyVariance_ok (rng : ℤ → ℚ) (now : ℤ) (aH aMH aTH v : ℚ) (tid : String) :
    0 ≤ (applyVariance rng now aH aMH aTH v tid).health ∧
    (applyVariance rng now aH aMH aTH v tid).health ≤
      (applyVariance rng now aH aMH aTH v tid).maxHealth ∧
    1 ≤ (applyVariance rng now aH aMH aTH v tid).maxHealth ∧
    0 ≤ (applyVariance rng now aH aMH aTH v tid).tempHealth := by
  unfold applyVariance
  exact clampHealthTriple_ok _ _ _

lemma getExactHealth_accuracy (t : Token) : (getExactHealth t).accuracy = 1 := by
  cases h : t.actor <;> simp [getExactHealth, h]

lemma getPassivePerception_nonneg (t : Token) : 0 ≤ getPassivePerception t := by
  cases h : t.actor <;> simp [getPassivePerception, h]

lemma calculateVariance_nonneg (p : ℚ) : 0 ≤ calculateVariance p :=
  le_max_left 0 _

lemma calculateVariance_le_half (p : ℚ) (hp : 0 ≤ p) : calculateVariance p ≤ 1 / 2 := by
  unfold calculateVariance
  have : 3 / 10 - (p - 10) * (2 / 100) ≤ (1 : ℚ) / 2 := by linarith
  exact max_le (by norm_num) (le_trans (min_le_right _ _) this)

/-! ### C1 — obfuscation bounds -/

/-- C1 (counterexample): a GM call on a token whose backing actor reports
`health = 5, maxHealth = 0` returns those raw figures unclamped, so the
claimed bounds `maxHealth ≥ 1` and `health ≤ maxHealth` both fail. -/
theorem obfuscateHealth_bounds_cex :
    ¬ (1 ≤ (obfuscateHealth (fun _ => 0) 0
            ⟨"t1", true, false, false, false, 0, "", some ⟨5, 0, 0, none⟩⟩
            true none).maxHealth ∧
       (obfuscateHealth (fun _ => 0) 0
            ⟨"t1", true, false, false, false, 0, "", some ⟨5, 0, 0, none⟩⟩
            true none).health ≤
         (obfuscateHealth (fun _ => 0) 0
            ⟨"t1", true, false, false, false, 0, "", some ⟨5, 0, 0, none⟩⟩
            true none).maxHealth) := by
  decide

/-- C1 (amended): `accuracy ∈ [0, 1]` holds on every call; the figure
bounds `0 ≤ health ≤ maxHealth`, `maxHealth ≥ 1`, `tempHealth ≥ 0` hold
on every call that takes the variance path (caller not GM, target not
owned, an observer token resolved); exact-path calls return the raw
actor figures, which satisfy the bounds only when the raw data does. -/
theorem obfuscateHealth_bounds (rng : ℤ → ℚ) (now : ℤ) (targetToken : Token)
    (isGM : Bool) (observerToken : Option Token) :
    (0 ≤ (obfuscateHealth rng now targetToken isGM observerToken).accuracy ∧
      (obfuscateHealth rng now targetToken isGM observerToken).accuracy ≤ 1) ∧
    (isGM = false → targetToken.isOwnedByCurrentUser = false →
      ∀ observer, observerToken = some observer →
        0 ≤ (obfuscateHealth rng now targetToken isGM observerToken).health ∧
        (obfuscateHealth rng now targetToken isGM observerToken).health ≤
          (obfuscateHealth rng now targetToken isGM observerToken).maxHealth ∧
        1 ≤ (obfuscateHealth rng now targetToken isGM observerToken).maxHealth ∧
        0 ≤ (obfuscateHealth rng now targetToken isGM observerToken).tempHealth) := by
  constructor
  · by_cases hg : (isGM || targetToken.isOwnedByCurrentUser) = true
    · simp only [obfuscateHealth, hg, if_true]
      rw [getExactHealth_accuracy]
      norm_num
    · have hg' : (isGM || targetToken.isOwnedByCurrentUser) = false := by
        simpa using hg
      cases observerToken with
      | none =>
        simp only [obfuscateHealth, hg', Bool.false_eq_true, if_false]
        rw [getExactHealth_accuracy]
        norm_num
      | some observer =>
        have h1 := calculateVariance_nonneg (getPassivePerception observer)
        have h2 := calculateVariance_le_half (getPassivePerception observer)
          (getPassivePerception_nonneg observer)
        simp only [obfuscateHealth, hg', Bool.false_eq_true, if_false]
        constructor
        · linarith
        · linarith
  · intro hgm hown observer hobs
    subst hobs
    simp only [obfuscateHealth, hgm, hown, Bool.or_self, Bool.false_eq_true, if_false]
    exact applyVariance_ok rng now _ _ _ _ _

/-- C1 (witness): the amended bounds at a concrete unprivileged call. -/
theorem obfuscateHealth_bounds_witness :
    0 ≤ (obfuscateHealth (fun _ => 0) 0
          ⟨"t1", true, false, false, false, 0, "", some ⟨5, 0, 0, none⟩⟩ false
          (some ⟨"o1", true, false, true, true, 1, "", some ⟨9, 9, 0, some 12⟩⟩)).health ∧
    (obfuscateHealth (fun _ => 0) 0
          ⟨"t1", true, false, false, false, 0, "", some ⟨5, 0, 0, none⟩⟩ false
          (some ⟨"o1", true, false, true, true, 1, "", some ⟨9, 9, 0, some 12⟩⟩)).health ≤
      (obfuscateHealth (fun _ => 0) 0
          ⟨"t1", true, false, false, false, 0, "", some ⟨5, 0, 0, none⟩⟩ false
          (some ⟨"o1", true, false, true, true, 1, "", some ⟨9, 9, 0, some 12⟩⟩)).maxHealth ∧
    1 ≤ (obfuscateHealth (fun _ => 0) 0
          ⟨"t1", true, false, false, false, 0, "", some ⟨5, 0, 0, none⟩⟩ false
          (some ⟨"o1", true, false, true, true, 1, "", some ⟨9, 9, 0, some 12⟩⟩)).maxHealth ∧
    0 ≤ (obfuscateHealth (fun _ => 0) 0
          ⟨"t1", true, false, false, false, 0, "", some ⟨5, 0, 0, none⟩⟩ false
          (some ⟨"o1", true, false, true, true, 1, "", some ⟨9, 9, 0, some 12⟩⟩)).tempHealth :=
  (obfuscateHealth_bounds (fun _ => 0) 0
      ⟨"t1", true, false, false, false, 0, "", some ⟨5, 0, 0, none⟩⟩ false
      (some ⟨"o1", true, false, true, true, 1, "", some ⟨9, 9, 0, some 12⟩⟩)).2
    rfl rfl _ rfl

/-! ### C2 — privileged callers get exact figures -/

/-- C2: with the GM flag set, or the target owned by the current user,
`obfuscateHealth` returns `accuracy = 1`, and when the target has a
backing actor the figures are exactly that actor's raw values, for any
observer state, any time, and any random stream. -/
theorem obfuscateHealth_privileged (rng : ℤ → ℚ) (now : ℤ) (targetToken : Token)
    (isGM : Bool) (observerToken : Option Token)
    (hpriv : isGM = true ∨ targetToken.isOwnedByCurrentUser = true) :
    (obfuscateHealth rng now targetToken isGM observerToken).accuracy = 1 ∧
    ∀ a, targetToken.actor = some a →
      obfuscateHealth rng now targetToken isGM observerToken =
        ⟨a.health, a.maxHealth, a.tempHealth, 1⟩ := by
  have hg : (isGM || targetToken.isOwnedByCurrentUser) = true := by
    rcases hpriv with h | h <;> simp [h]
  constructor
  · simp only [obfuscateHealth, hg, if_true]
    exact getExactHealth_accuracy _
  · intro a ha
    simp [obfuscateHealth, hg, getExactHealth, ha]

/-- C2 (witness): an owned token with raw figures `7 / 20 / 3` is reported
exactly, with `accuracy = 1`, even though an observer with perception 12
exists and the caller is not GM. -/
theorem obfuscateHealth_privileged_witness :
    (obfuscateHealth (fun _ => 0) 0
        ⟨"t2", true, false, false, true, 1, "", some ⟨7, 20, 3, none⟩⟩ false
        (some ⟨"o1", true, false, true, true, 1, "", some ⟨9, 9, 0, some 12⟩⟩)).accuracy = 1 ∧
    obfuscateHealth (fun _ => 0) 0
        ⟨"t2", true, false, false, true, 1, "", some ⟨7, 20, 3, none⟩⟩ false
        (some ⟨"o1", true, false, true, true, 1, "", some ⟨9, 9, 0, some 12⟩⟩) =
      ⟨7, 20, 3, 1⟩ := by
  have h := obfuscateHealth_privileged (fun _ => 0) 0
    ⟨"t2", true, false, false, true, 1, "", some ⟨7, 20, 3, none⟩⟩ false
    (some ⟨"o1", true, false, true, true, 1, "", some ⟨9, 9, 0, some 12⟩⟩)
    (Or.inr rfl)
  exact ⟨h.1, h.2 _ rfl⟩

/-! ### C3 — stability window -/

/-- C3: two calls with identical token, privilege, observer state and
random stream whose timestamps fall in the same 60000 ms bucket
(`⌊now / 60000⌋` equal) return identical results; the timestamp enters
the computation only through that bucket. -/
theorem obfuscateHealth_stable_window (rng : ℤ → ℚ) (targetToken : Token)
    (isGM : Bool) (observerToken : Option Token) (now₁ now₂ : ℤ)
    (hb : Int.fdiv now₁ 60000 = Int.fdiv now₂ 60000) :
    obfuscateHealth rng now₁ targetToken isGM observerToken =
      obfuscateHealth rng now₂ targetToken isGM observerToken := by
  unfold obfuscateHealth applyVariance seedOf
  rw [hb]

/-- C3 (witness): times 0 ms and 59999 ms share bucket 0, so the calls
agree at a concrete unprivileged input. -/
theorem obfuscateHealth_stable_window_witness :
    obfuscateHealth (fun s => (s % 7 : ℤ) / 7) 0
        ⟨"t3", true, false, false, false, 0, "", some ⟨40, 80, 0, none⟩⟩ false
        (some ⟨"o1", true, false, true, true, 1, "", some ⟨9, 9, 0, some 10⟩⟩) =
      obfuscateHealth (fun s => (s % 7 : ℤ) / 7) 59999
        ⟨"t3", true, false, false, false, 0, "", some ⟨40, 80, 0, none⟩⟩ false
        (some ⟨"o1", true, false, true, true, 1, "", some ⟨9, 9, 0, some 10⟩⟩) :=
  obfuscateHealth_stable_window (fun s => (s % 7 : ℤ) / 7)
    ⟨"t3", true, false, false, false, 0, "", some ⟨40, 80, 0, none⟩⟩ false
    (some ⟨"o1", true, false, true, true, 1, "", some ⟨9, 9, 0, some 10⟩⟩)
    0 59999 (by decide)

/-! ### C4 — variance model and the 40/80 scenario -/

/-- C4: the variance is `clamp(0.30 − (p − 10)·0.02, 0, 2)` of the
resolved passive perception, which defaults to 10 when no actor or no
perception datum is available; at perception 10 the variance is `0.30`
and the accuracy `0.70`; with variance `0.30` every base multiplier lies
in `[0.70, 1.30]`, so for raw health 40 the pre-jitter, pre-rounding
reported health lies in `[28, 52]`; an unprivileged call with an
observer returns accuracy exactly `1 − variance`; and the final
reported `maxHealth` is always at least the final reported `health`. -/
theorem varianceModel (rng : ℤ → ℚ) (hr : ∀ s, 0 ≤ rng s ∧ rng s < 1) :
    (∀ p : ℚ, calculateVariance p = max 0 (min 2 (3 / 10 - (p - 10) * (2 / 100)))) ∧
    (∀ t : Token, t.actor = none → getPassivePerception t = 10) ∧
    (∀ (t : Token) (a : ActorHealthData), t.actor = some a →
      a.passivePerception = none → getPassivePerception t = 10) ∧
    calculateVariance 10 = 3 / 10 ∧
    1 - calculateVariance 10 = 7 / 10 ∧
    (∀ s, 7 / 10 ≤ baseMultiplier rng s (3 / 10) ∧
      baseMultiplier rng s (3 / 10) ≤ 13 / 10) ∧
    (∀ s, 28 ≤ 40 * baseMultiplier rng s (3 / 10) ∧
      40 * baseMultiplier rng s (3 / 10) ≤ 52) ∧
    (∀ (now : ℤ) (targetToken observer : Token),
      targetToken.isOwnedByCurrentUser = false →
      (obfuscateHealth rng now targetToken false (some observer)).accuracy =
        1 - calculateVariance (getPassivePerception observer)) ∧
    (∀ (now : ℤ) (aH aMH aTH v : ℚ) (tid : String),
      (applyVariance rng now aH aMH aTH v tid).health ≤
        (applyVariance rng now aH aMH aTH v tid).maxHealth) := by
  have hv10 : calculateVariance 10 = 3 / 10 := by
    unfold calculateVariance
    norm_num
  have hbm : ∀ s, 7 / 10 ≤ baseMultiplier rng s (3 / 10) ∧
      baseMultiplier rng s (3 / 10) ≤ 13 / 10 := by
    intro s
    have h1 := (hr s).1
    have h2 := (hr s).2
    unfold baseMultiplier
    constructor <;> nlinarith
  refine ⟨fun p => rfl, ?_, ?_, hv10, by rw [hv10]; norm_num, hbm, ?_, ?_, ?_⟩
  · intro t ht
    simp [getPassivePerception, ht]
  · intro t a ht ha
    simp [getPassivePerception, ht, ha]
  · intro s
    have h := hbm s
    constructor <;> nlinarith [h.1, h.2]
  · intro now targetToken observer hown
    simp [obfuscateHealth, hown]
  · intro now aH aMH aTH v tid
    exact (applyVariance_ok rng now aH aMH aTH v tid).2.1

/-- C4 (witness): the scenario figures at the concrete random stream that
returns 0 everywhere. -/
theorem varianceModel_witness :
    calculateVariance 10 = 3 / 10 ∧
    1 - calculateVariance 10 = 7 / 10 ∧
    7 / 10 ≤ baseMultiplier (fun _ => 0) 0 (3 / 10) ∧
    28 ≤ 40 * baseMultiplier (fun _ => 0) 0 (3 / 10) := by
  have h := varianceModel (fun _ => 0) (fun s => by norm_num)
  exact ⟨h.2.2.2.1, h.2.2.2.2.1, (h.2.2.2.2.2.1 0).1, (h.2.2.2.2.2.2.1 0).1⟩

lemma mapGet_eq_none_countKey (m : List (String × Nat)) (k : String)
    (h : mapGet m k = none) : countKey m k = 0 := by
  unfold mapGet at h
  rw [Option.map_eq_none'] at h
  unfold countKey
  rw [List.filter_eq_nil_iff.mpr (List.find?_eq_none.mp h)]
  rfl

lemma mapGet_eq_some_countKey (m : List (String × Nat)) (k : String) (g : Nat)
    (h : mapGet m k = some g) : 1 ≤ countKey m k := by
  unfold mapGet at h
  rw [Option.map_eq_some'] at h
  obtain ⟨p, hp, -⟩ := h
  have hfk : (p.1 == k) = true := @List.find?_some _ (fun q => q.1 == k) p m hp
  have hm : p ∈ m.filter (fun p => p.1 == k) :=
    List.mem_filter.mpr ⟨List.mem_of_find?_eq_some hp, hfk⟩
  exact List.length_pos.mpr (List.ne_nil_of_mem hm)

lemma mapGet_append_self (m : List (String × Nat)) (k : String) (v : Nat)
    (h : mapGet m k = none) : mapGet (m ++ [(k, v)]) k = some v := by
  unfold mapGet at h ⊢
  rw [Option.map_eq_none'] at h
  rw [List.find?_append, h]
  simp

lemma countKey_append_self (m : List (String × Nat)) (k : String) (v : Nat) :
    countKey (m ++ [(k, v)]) k = countKey m k + 1 := by
  unfold countKey
  rw [List.filter_append, List.length_append]
  simp

/-- One deletion step of `clearAllTokenOverlays` removes exactly the
entries stored under the key. -/
lemma clearStep_eq_filter (st : RenderState) (k : String) :
    (match mapGet st.overlayInstances k with
     | some _ => { st with overlayInstances := mapDelete st.overlayInstances k }
     | none => st) =
    { st with overlayInstances :=
        st.overlayInstances.filter (fun p => !(p.1 == k)) } := by
  cases h : mapGet st.overlayInstances k with
  | some g => simp [mapDelete]
  | none =>
    simp only []
    have hself : st.overlayInstances.filter (fun p => !(p.1 == k)) =
        st.overlayInstances := by
      apply List.filter_eq_self.mpr
      intro p hp
      unfold mapGet at h
      rw [Option.map_eq_none'] at h
      have h2 := List.find?_eq_none.mp h p hp
      simpa using h2
    rw [hself]

/-- Folding the deletion step over a key list filters out exactly the
entries whose key is in that list. -/
lemma clearFold_eq_filter (keys : List String) (st : RenderState) :
    keys.foldl
      (fun s key =>
        match mapGet s.overlayInstances key with
        | some _ => { s with overlayInstances := mapDelete s.overlayInstances key }
        | none => s)
      st =
    { st with overlayInstances :=
        st.overlayInstances.filter (fun p => !(keys.contains p.1)) } := by
  induction keys generalizing st with
  | nil => simp
  | cons k ks ih =>
    rw [List.foldl_cons, clearStep_eq_filter, ih]
    simp only [List.filter_filter]
    congr 1
    apply List.filter_congr
    intro p _
    rw [List.contains_cons, Bool.not_or]
    exact Bool.and_comm _ _

lemma hideStaleM_activeKeys (st : KCState) :
    (hideStaleM st).1.activeKeys = st.activeKeys := by
  unfold hideStaleM
  split <;> rfl

lemma hideStaleK_activeKeys (st : KCState) :
    (hideStaleK st).1.activeKeys = st.activeKeys := by
  unfold hideStaleK
  split <;> rfl

lemma hideStaleK_mCache (st : KCState) :
    (hideStaleK st).1.mKeyOverlaysCache = st.mKeyOverlaysCache := by
  unfold hideStaleK
  split <;> rfl

lemma hideStaleM_of_active (st : KCState) (h : "m" ∈ st.activeKeys) :
    hideStaleM st = (st, ∅) := by
  unfold hideStaleM
  rw [if_neg]
  simp [h]

lemma processM_activeKeys (st : KCState) (env : KeyEnv) :
    (processMKeyOverlays st env).activeKeys = st.activeKeys := by
  unfold processMKeyOverlays
  split <;> rfl

lemma processK_activeKeys (st : KCState) (env : KeyEnv) :
    (processKKeyOverlays st env).activeKeys = st.activeKeys := by
  unfold processKKeyOverlays
  split <;> rfl

lemma processK_mCache (st : KCState) (env : KeyEnv) :
    (processKKeyOverlays st env).mKeyOverlaysCache = st.mKeyOverlaysCache := by
  unfold processKKeyOverlays
  split <;> rfl

lemma processM_mCache (st : KCState) (env : KeyEnv) :
    (processMKeyOverlays st env).mKeyOverlaysCache =
      (if env.mFiltered.isEmpty then st.mKeyOverlaysCache
       else env.mGroups.foldl (fun c g => trackOverlays c g.1 g.2) []) := by
  unfold processMKeyOverlays
  split <;> simp_all

lemma updateOverlays_m (st : KCState) (env : KeyEnv) (hm : "m" ∈ st.activeKeys) :
    (updateOverlays st env).1.activeKeys = st.activeKeys ∧
    (updateOverlays st env).1.mKeyOverlaysCache =
      (if env.mFiltered.isEmpty then st.mKeyOverlaysCache
       else env.mGroups.foldl (fun c g => trackOverlays c g.1 g.2) []) := by
  have hne : st.activeKeys ≠ [] := List.ne_nil_of_mem hm
  have hie : ((hideStaleK st).1.activeKeys.isEmpty) = false := by
    rw [hideStaleK_activeKeys]
    cases h : st.activeKeys.isEmpty with
    | false => rfl
    | true => exact absurd (List.isEmpty_iff.mp h) hne
  simp only [updateOverlays]
  rw [hideStaleM_of_active st hm]
  rw [if_neg (by simp [hie])]
  rw [if_pos hm]
  by_cases hk : "k" ∈ st.activeKeys
  · rw [if_pos hk]
    exact ⟨by rw [processK_activeKeys, processM_activeKeys, hideStaleK_activeKeys],
           by rw [processK_mCache, processM_mCache, hideStaleK_mCache]⟩
  · rw [if_neg hk]
    exact ⟨by rw [processM_activeKeys, hideStaleK_activeKeys],
           by rw [processM_mCache, hideStaleK_mCache]⟩

lemma handleKeyDown_m (st : KCState) (env : KeyEnv) (hM : "m" ∉ st.activeKeys) :
    (handleKeyDown st "m" env).1.activeKeys = st.activeKeys ++ ["m"] ∧
    (handleKeyDown st "m" env).1.mKeyOverlaysCache =
      (if env.mFiltered.isEmpty then st.mKeyOverlaysCache
       else env.mGroups.foldl (fun c g => trackOverlays c g.1 g.2) []) := by
  have hlow : strToLower "m" = "m" := rfl
  simp only [handleKeyDown, hlow]
  rw [if_neg (by simp), if_neg hM]
  exact updateOverlays_m { st with activeKeys := st.activeKeys ++ ["m"] } env (by simp)

lemma handleKeyUp_m (st : KCState) (hm : "m" ∈ st.activeKeys) :
    (handleKeyUp st "m").1.activeKeys = st.activeKeys.erase "m" ∧
    (handleKeyUp st "m").1.mKeyOverlaysCache = [] ∧
    (handleKeyUp st "m").1.kKeyOverlaysCache = st.kKeyOverlaysCache ∧
    (handleKeyUp st "m").2 = collectUniqueOverlayTypes st.mKeyOverlaysCache := by
  have hlow : strToLower "m" = "m" := rfl
  simp only [handleKeyUp, hlow]
  split_ifs with h1 h2 h3
  · exact absurd h2.1 (by decide)
  · exact ⟨rfl, rfl, rfl, rfl⟩
  · exact absurd h3.1 (by decide)
  · have hc : st.mKeyOverlaysCache = [] := by
      rcases not_and_or.mp h1 with h | h
      · exact absurd trivial h
      · exact not_not.mp h
    exact ⟨rfl, hc, rfl, by rw [hc]; rfl⟩

/-! ### C5 — scope resolution -/

/-- C5 (counterexample): with scope `preview` the supplied preview token
is returned even when it is not in the input token list, so the resolved
set is not always a subset of the input. -/
theorem determineTargetTokens_subset_cex :
    determineTargetTokens [] "preview"
        (some ⟨"p1", true, false, false, false, 0, "", none⟩) =
      [⟨"p1", true, false, false, false, 0, "", none⟩] ∧
    ¬ (∀ t ∈ determineTargetTokens [] "preview"
          (some ⟨"p1", true, false, false, false, 0, "", none⟩),
        t ∈ ([] : List Token)) := by
  refine ⟨rfl, fun h => ?_⟩
  exact absurd
    (h ⟨"p1", true, false, false, false, 0, "", none⟩ (List.mem_singleton.mpr rfl))
    (by simp)

/-- C5 (amended): each scope resolves to exactly the subset satisfying
its predicate (`preview` to the supplied preview token or the empty
list, unknown scopes to the visible tokens); the result is a subset of
the input for every scope other than `preview`; and the `owned` result
is contained in the `visible-and-not-hidden` result. -/
theorem determineTargetTokens_spec (allTokens : List Token)
    (previewToken : Option Token) :
    determineTargetTokens allTokens "visible" previewToken =
      allTokens.filter (fun t => t.visible) ∧
    determineTargetTokens allTokens "visible-and-not-hidden" previewToken =
      allTokens.filter (fun t => t.visible && !t.hidden) ∧
    determineTargetTokens allTokens "controlled" previewToken =
      allTokens.filter (fun t => t.isControlledByCurrentUser) ∧
    determineTargetTokens allTokens "owned" previewToken =
      allTokens.filter (fun t => t.isOwnedByCurrentUser && t.visible && !t.hidden) ∧
    determineTargetTokens allTokens "all" previewToken = allTokens ∧
    determineTargetTokens allTokens "non-controlled" previewToken =
      allTokens.filter (fun t => t.visible && !t.hidden && !t.isControlledByCurrentUser) ∧
    (∀ t, determineTargetTokens allTokens "preview" (some t) = [t]) ∧
    determineTargetTokens allTokens "preview" none = [] ∧
    (∀ scope, scope ∉ (["visible", "visible-and-not-hidden", "controlled",
        "owned", "all", "non-controlled", "preview"] : List String) →
      determineTargetTokens allTokens scope previewToken =
        allTokens.filter (fun t => t.visible)) ∧
    (∀ scope, scope ≠ "preview" →
      ∀ t ∈ determineTargetTokens allTokens scope previewToken, t ∈ allTokens) ∧
    (∀ t ∈ determineTargetTokens allTokens "owned" previewToken,
      t ∈ determineTargetTokens allTokens "visible-and-not-hidden" previewToken) := by
  have hown : determineTargetTokens allTokens "owned" previewToken =
      allTokens.filter (fun t => t.isOwnedByCurrentUser && t.visible && !t.hidden) := rfl
  have hvnh : determineTargetTokens allTokens "visible-and-not-hidden" previewToken =
      allTokens.filter (fun t => t.visible && !t.hidden) := rfl
  refine ⟨rfl, hvnh, rfl, hown, rfl, rfl, fun t => rfl, rfl, ?_, ?_, ?_⟩
  · intro scope hs
    simp only [List.mem_cons, List.not_mem_nil, or_false, not_or] at hs
    obtain ⟨h1, h2, h3, h4, h5, h6, h7⟩ := hs
    simp [determineTargetTokens, h1, h2, h3, h4, h5, h6, h7]
  · intro scope hns t ht
    unfold determineTargetTokens at ht
    split_ifs at ht with h1 h2 h3 h4 h5 h6
    · exact List.mem_of_mem_filter ht
    · exact List.mem_of_mem_filter ht
    · exact List.mem_of_mem_filter ht
    · exact List.mem_of_mem_filter ht
    · exact ht
    · exact List.mem_of_mem_filter ht
    · exact List.mem_of_mem_filter ht
  · intro t ht
    rw [hown, List.mem_filter] at ht
    rw [hvnh, List.mem_filter]
    have hb := ht.2
    simp only [Bool.and_eq_true] at hb
    refine ⟨ht.1, ?_⟩
    simp only [Bool.and_eq_true]
    exact ⟨hb.1.2, hb.2⟩

/-- C5 (witness): the amended statement at a concrete two-token list. -/
theorem determineTargetTokens_spec_witness :
    determineTargetTokens
        [⟨"a", true, false, false, true, 0, "", none⟩,
         ⟨"b", false, true, false, false, 0, "", none⟩] "owned" none =
      [⟨"a", true, false, false, true, 0, "", none⟩] ∧
    determineTargetTokens
        [⟨"a", true, false, false, true, 0, "", none⟩,
         ⟨"b", false, true, false, false, 0, "", none⟩] "hovered" none =
      [⟨"a", true, false, false, true, 0, "", none⟩] := by
  have h := determineTargetTokens_spec
    [⟨"a", true, false, false, true, 0, "", none⟩,
     ⟨"b", false, true, false, false, 0, "", none⟩] none
  constructor
  · rw [h.2.2.2.1]
    rfl
  · rw [h.2.2.2.2.2.2.2.2.1 "hovered" (by decide)]
    rfl

/-! ### C8 — token-info text -/

/-- C8: the token-info context carries empty text for a
friendly-disposition target (so the renderer paints nothing), and
`Contact`/`Bogey`/`Bandit` followed by a space and the tracking number
for secret/neutral/hostile dispositions; a hostile token with tracking
number `"042"` paints exactly `"Bandit 042"`. -/
theorem tokenInfoText_spec (t : Token) (hasStyle : Bool) :
    (t.disposition = dispositionFriendly →
      buildTokenInfoText t = "" ∧
      renderTokenInfo (buildTokenInfoText t) hasStyle = none) ∧
    (t.disposition = dispositionSecret →
      buildTokenInfoText t = "Contact " ++ t.trackingReferenceNumber) ∧
    (t.disposition = dispositionNeutral →
      buildTokenInfoText t = "Bogey " ++ t.trackingReferenceNumber) ∧
    (t.disposition = dispositionHostile →
      buildTokenInfoText t = "Bandit " ++ t.trackingReferenceNumber) ∧
    (t.disposition = dispositionHostile → t.trackingReferenceNumber = "042" →
      renderTokenInfo (buildTokenInfoText t) true = some "Bandit 042") := by
  refine ⟨fun hf => ?_, fun hs => ?_, fun hn => ?_, fun hh => ?_, fun hh htrn => ?_⟩
  · rw [buildTokenInfoText, if_pos hf]
    exact ⟨rfl, rfl⟩
  · rw [buildTokenInfoText]
    rw [if_neg (by rw [hs]; decide), if_pos hs]
    rfl
  · rw [buildTokenInfoText]
    rw [if_neg (by rw [hn]; decide), if_neg (by rw [hn]; decide), if_pos hn]
    rfl
  · rw [buildTokenInfoText]
    rw [if_neg (by rw [hh]; decide), if_neg (by rw [hh]; decide),
      if_neg (by rw [hh]; decide), if_pos hh]
    rfl
  · rw [buildTokenInfoText]
    rw [if_neg (by rw [hh]; decide), if_neg (by rw [hh]; decide),
      if_neg (by rw [hh]; decide), if_pos hh, htrn]
    rfl

/-- C8 (witness): concrete hostile and friendly tokens with tracking
number `"042"`. -/
theorem tokenInfoText_spec_witness :
    renderTokenInfo
      (buildTokenInfoText ⟨"h1", true, false, false, false, -1, "042", none⟩) true =
      some "Bandit 042" ∧
    buildTokenInfoText ⟨"f1", true, false, false, false, 1, "042", none⟩ = "" := by
  constructor
  · exact (tokenInfoText_spec ⟨"h1", true, false, false, false, -1, "042", none⟩
      true).2.2.2.2 rfl rfl
  · exact ((tokenInfoText_spec ⟨"f1", true, false, false, false, 1, "042", none⟩
      true).1 rfl).1

/-! ### C9 — key-trigger filtering -/

/-- C9 (counterexample): a definition whose stored key list is `["M"]`
(upper case) is never returned — not even for the query `"M"` itself —
because only the query key is lowercased while stored keys are compared
verbatim; the claim's case-insensitive containment would return it. -/
theorem filterByKeyTrigger_cex :
    filterByKeyTrigger [⟨"ov1", .config (some ["M"])⟩] "M" = [] ∧
    filterByKeyTrigger [⟨"ov1", .config (some ["M"])⟩] "m" = [] := by
  exact ⟨rfl, rfl⟩

/-- C9 (amended): `filterByKeyTrigger` returns exactly the registered
definitions whose `keyPress` trigger carries a non-empty keys list that
contains the lowercased query key verbatim; in particular the queries
`"M"` and `"m"` return the same definitions, but keys stored in upper
case are never matched. -/
theorem filterByKeyTrigger_spec (registry : List OverlayDefinition)
    (triggerKey : String) :
    filterByKeyTrigger registry triggerKey =
      registry.filter (fun overlay =>
        match overlay.keyPress with
        | .config (some keys) => !keys.isEmpty && keys.contains (strToLower triggerKey)
        | _ => false) ∧
    (∀ defs : List OverlayDefinition,
      filterByKeyTrigger defs "M" = filterByKeyTrigger defs "m") :=
  ⟨rfl, fun _ => rfl⟩

lemma hideStaleM_kCache (st : KCState) :
    (hideStaleM st).1.kKeyOverlaysCache = st.kKeyOverlaysCache := by
  unfold hideStaleM
  split <;> rfl

lemma hideStaleK_of_active (st : KCState) (h : "k" ∈ st.activeKeys) :
    hideStaleK st = (st, ∅) := by
  unfold hideStaleK
  rw [if_neg]
  simp [h]

lemma processM_kCache (st : KCState) (env : KeyEnv) :
    (processMKeyOverlays st env).kKeyOverlaysCache = st.kKeyOverlaysCache := by
  unfold processMKeyOverlays
  split <;> rfl

lemma processK_kCache (st : KCState) (env : KeyEnv) :
    (processKKeyOverlays st env).kKeyOverlaysCache =
      (if env.kFiltered.isEmpty then st.kKeyOverlaysCache
       else env.kGroups.foldl (fun c g => trackOverlays c g.1 g.2) []) := by
  unfold processKKeyOverlays
  split <;> simp_all

lemma updateOverlays_k (st : KCState) (env : KeyEnv) (hk : "k" ∈ st.activeKeys) :
    (updateOverlays st env).1.activeKeys = st.activeKeys ∧
    (updateOverlays st env).1.kKeyOverlaysCache =
      (if env.kFiltered.isEmpty then st.kKeyOverlaysCache
       else env.kGroups.foldl (fun c g => trackOverlays c g.1 g.2) []) := by
  have hne : st.activeKeys ≠ [] := List.ne_nil_of_mem hk
  have hk1 : "k" ∈ (hideStaleM st).1.activeKeys := by
    rw [hideStaleM_activeKeys]
    exact hk
  have hie : ((hideStaleM st).1.activeKeys.isEmpty) = false := by
    rw [hideStaleM_activeKeys]
    cases h : st.activeKeys.isEmpty with
    | false => rfl
    | true => exact absurd (List.isEmpty_iff.mp h) hne
  simp only [updateOverlays]
  rw [hideStaleK_of_active _ hk1]
  rw [if_neg (by simp [hie])]
  rw [if_pos hk]
  by_cases hm : "m" ∈ st.activeKeys
  · rw [if_pos hm]
    exact ⟨by rw [processK_activeKeys, processM_activeKeys, hideStaleM_activeKeys],
           by rw [processK_kCache, processM_kCache, hideStaleM_kCache]⟩
  · rw [if_neg hm]
    exact ⟨by rw [processK_activeKeys, hideStaleM_activeKeys],
           by rw [processK_kCache, hideStaleM_kCache]⟩

lemma handleKeyDown_k (st : KCState) (env : KeyEnv) (hK : "k" ∉ st.activeKeys) :
    (handleKeyDown st "k" env).1.activeKeys = st.activeKeys ++ ["k"] ∧
    (handleKeyDown st "k" env).1.kKeyOverlaysCache =
      (if env.kFiltered.isEmpty then st.kKeyOverlaysCache
       else env.kGroups.foldl (fun c g => trackOverlays c g.1 g.2) []) := by
  have hlow : strToLower "k" = "k" := rfl
  simp only [handleKeyDown, hlow]
  rw [if_neg (by simp), if_neg hK]
  exact updateOverlays_k { st with activeKeys := st.activeKeys ++ ["k"] } env (by simp)

lemma handleKeyUp_k (st : KCState) (hk : "k" ∈ st.activeKeys) :
    (handleKeyUp st "k").1.activeKeys = st.activeKeys.erase "k" ∧
    (handleKeyUp st "k").1.kKeyOverlaysCache = [] ∧
    (handleKeyUp st "k").1.mKeyOverlaysCache = st.mKeyOverlaysCache ∧
    (handleKeyUp st "k").2 = collectUniqueOverlayTypes st.kKeyOverlaysCache := by
  have hlow : strToLower "k" = "k" := rfl
  simp only [handleKeyUp, hlow]
  split_ifs with h1 h2 h3
  · exact absurd h1.1 (by decide)
  · exact absurd h1.1 (by decide)
  · exact ⟨rfl, rfl, rfl, by simp⟩
  · have hc : st.kKeyOverlaysCache = [] := by
      rcases not_and_or.mp h3 with h | h
      · exact absurd (by trivial) h
      · exact not_not.mp h
    exact ⟨rfl, hc, rfl, by rw [hc]; rfl⟩

lemma handleKeyDown_repeat_k (st : KCState) (env : KeyEnv)
    (hk : "k" ∈ st.activeKeys) : handleKeyDown st "k" env = (st, ∅) := by
  have hlow : strToLower "k" = "k" := rfl
  simp only [handleKeyDown, hlow]
  rw [if_neg (by simp), if_pos hk]

lemma handleKeyUp_inactive_k (st : KCState) (hk : "k" ∉ st.activeKeys) :
    handleKeyUp st "k" = (st, ∅) := by
  have hlow : strToLower "k" = "k" := rfl
  simp only [handleKeyUp, hlow]
  rw [if_pos hk]

lemma handleKeyDown_repeat (st : KCState) (env : KeyEnv)
    (hm : "m" ∈ st.activeKeys) : handleKeyDown st "m" env = (st, ∅) := by
  have hlow : strToLower "m" = "m" := rfl
  simp only [handleKeyDown, hlow]
  rw [if_neg (by simp), if_pos hm]

lemma handleKeyUp_inactive (st : KCState) (hm : "m" ∉ st.activeKeys) :
    handleKeyUp st "m" = (st, ∅) := by
  have hlow : strToLower "m" = "m" := rfl
  simp only [handleKeyUp, hlow]
  rw [if_pos hm]

/-! ### C6 — edge-triggered keyboard gestures -/

/-- C6: for each tracked key (`m` and `k`), starting from a state where
that key is not pressed and its cache is empty: a key-down marks the key
and caches the shown overlays (exactly the groups the environment
reports, or nothing when no overlay is registered for the key); a second
key-down while held is ignored (identical state, nothing hidden); the
matched key-up hides exactly the union of the overlay-type ids cached
during the single active press and clears only that key's cache, leaving
the other key's cache untouched; and a second, unmatched key-up is a
no-op. -/
theorem keyboardGesture_spec (st : KCState) (env : KeyEnv) :
    ("m" ∉ st.activeKeys → st.mKeyOverlaysCache = [] →
      handleKeyDown (handleKeyDown st "m" env).1 "m" env =
        ((handleKeyDown st "m" env).1, ∅) ∧
      (handleKeyDown st "m" env).1.mKeyOverlaysCache =
        (if env.mFiltered.isEmpty then []
         else env.mGroups.foldl (fun c g => trackOverlays c g.1 g.2) []) ∧
      (handleKeyUp (handleKeyDown st "m" env).1 "m").2 =
        collectUniqueOverlayTypes (handleKeyDown st "m" env).1.mKeyOverlaysCache ∧
      (handleKeyUp (handleKeyDown st "m" env).1 "m").1.mKeyOverlaysCache = [] ∧
      (handleKeyUp (handleKeyDown st "m" env).1 "m").1.kKeyOverlaysCache =
        (handleKeyDown st "m" env).1.kKeyOverlaysCache ∧
      handleKeyUp (handleKeyUp (handleKeyDown st "m" env).1 "m").1 "m" =
        ((handleKeyUp (handleKeyDown st "m" env).1 "m").1, ∅)) ∧
    ("k" ∉ st.activeKeys → st.kKeyOverlaysCache = [] →
      handleKeyDown (handleKeyDown st "k" env).1 "k" env =
        ((handleKeyDown st "k" env).1, ∅) ∧
      (handleKeyDown st "k" env).1.kKeyOverlaysCache =
        (if env.kFiltered.isEmpty then []
         else env.kGroups.foldl (fun c g => trackOverlays c g.1 g.2) []) ∧
      (handleKeyUp (handleKeyDown st "k" env).1 "k").2 =
        collectUniqueOverlayTypes (handleKeyDown st "k" env).1.kKeyOverlaysCache ∧
      (handleKeyUp (handleKeyDown st "k" env).1 "k").1.kKeyOverlaysCache = [] ∧
      (handleKeyUp (handleKeyDown st "k" env).1 "k").1.mKeyOverlaysCache =
        (handleKeyDown st "k" env).1.mKeyOverlaysCache ∧
      handleKeyUp (handleKeyUp (handleKeyDown st "k" env).1 "k").1 "k" =
        ((handleKeyUp (handleKeyDown st "k" env).1 "k").1, ∅)) := by
  constructor
  · intro hM hC
    obtain ⟨hdkeys, hdmc⟩ := handleKeyDown_m st env hM
    have hm1 : "m" ∈ (handleKeyDown st "m" env).1.activeKeys := by
      rw [hdkeys]
      exact List.mem_append_right _ (List.mem_singleton.mpr rfl)
    obtain ⟨hukeys, humc, hukc, huout⟩ := handleKeyUp_m (handleKeyDown st "m" env).1 hm1
    have c1 := handleKeyDown_repeat (handleKeyDown st "m" env).1 env hm1
    have hm2 : "m" ∉ (handleKeyUp (handleKeyDown st "m" env).1 "m").1.activeKeys := by
      rw [hukeys, hdkeys, List.erase_append_right _ hM, List.erase_cons_head,
        List.append_nil]
      exact hM
    have c6 := handleKeyUp_inactive (handleKeyUp (handleKeyDown st "m" env).1 "m").1 hm2
    refine ⟨c1, ?_, huout, humc, hukc, c6⟩
    rw [hdmc, hC]
  · intro hK hC
    obtain ⟨hdkeys, hdkc⟩ := handleKeyDown_k st env hK
    have hk1 : "k" ∈ (handleKeyDown st "k" env).1.activeKeys := by
      rw [hdkeys]
      exact List.mem_append_right _ (List.mem_singleton.mpr rfl)
    obtain ⟨hukeys, hukc, humc, huout⟩ := handleKeyUp_k (handleKeyDown st "k" env).1 hk1
    have c1 := handleKeyDown_repeat_k (handleKeyDown st "k" env).1 env hk1
    have hk2 : "k" ∉ (handleKeyUp (handleKeyDown st "k" env).1 "k").1.activeKeys := by
      rw [hukeys, hdkeys, List.erase_append_right _ hK, List.erase_cons_head,
        List.append_nil]
      exact hK
    have c6 := handleKeyUp_inactive_k (handleKeyUp (handleKeyDown st "k" env).1 "k").1 hk2
    refine ⟨c1, ?_, huout, hukc, humc, c6⟩
    rw [hdkc, hC]

/-- C6 (witness): full press-and-release gestures for both tracked keys
from the empty state, with one registered overlay shown per key. -/
theorem keyboardGesture_spec_witness :
    handleKeyDown
        (handleKeyDown ⟨[], [], []⟩ "m"
          ⟨["ov1"], [(["t1"], ["ov1"])], ["ov2"], [(["t2"], ["ov2"])]⟩).1
        "m" ⟨["ov1"], [(["t1"], ["ov1"])], ["ov2"], [(["t2"], ["ov2"])]⟩ =
      ((handleKeyDown ⟨[], [], []⟩ "m"
          ⟨["ov1"], [(["t1"], ["ov1"])], ["ov2"], [(["t2"], ["ov2"])]⟩).1, ∅) ∧
    (handleKeyUp
        (handleKeyDown ⟨[], [], []⟩ "m"
          ⟨["ov1"], [(["t1"], ["ov1"])], ["ov2"], [(["t2"], ["ov2"])]⟩).1
        "m").1.mKeyOverlaysCache = [] ∧
    handleKeyDown
        (handleKeyDown ⟨[], [], []⟩ "k"
          ⟨["ov1"], [(["t1"], ["ov1"])], ["ov2"], [(["t2"], ["ov2"])]⟩).1
        "k" ⟨["ov1"], [(["t1"], ["ov1"])], ["ov2"], [(["t2"], ["ov2"])]⟩ =
      ((handleKeyDown ⟨[], [], []⟩ "k"
          ⟨["ov1"], [(["t1"], ["ov1"])], ["ov2"], [(["t2"], ["ov2"])]⟩).1, ∅) ∧
    (handleKeyUp
        (handleKeyDown ⟨[], [], []⟩ "k"
          ⟨["ov1"], [(["t1"], ["ov1"])], ["ov2"], [(["t2"], ["ov2"])]⟩).1
        "k").1.kKeyOverlaysCache = [] :=
  have h := keyboardGesture_spec ⟨[], [], []⟩
    ⟨["ov1"], [(["t1"], ["ov1"])], ["ov2"], [(["t2"], ["ov2"])]⟩
  have hm := h.1 (by simp) rfl
  have hk := h.2 (by simp) rfl
  ⟨hm.1, hm.2.2.2.1, hk.1, hk.2.2.2.1⟩

/-! ### C7 — instance-key uniqueness -/

/-- C7: on an initialised service with the overlay type registered and at
most one stored drawable per key, rendering the same (token, overlay
type) pair twice leaves the state of the first render unchanged —
the existing drawable is reused, no second instance-map entry appears —
and exactly one entry exists for the instance key afterwards. -/
theorem renderTokenOverlay_idempotent (st : RenderState)
    (tokenId overlayTypeId : String)
    (hinit : st.isInitialised = true)
    (hreg : st.registeredTypes.contains overlayTypeId = true)
    (hkey : countKey st.overlayInstances (createInstanceKey tokenId overlayTypeId) ≤ 1) :
    renderTokenOverlay (renderTokenOverlay st tokenId overlayTypeId)
        tokenId overlayTypeId =
      renderTokenOverlay st tokenId overlayTypeId ∧
    countKey (renderTokenOverlay st tokenId overlayTypeId).overlayInstances
      (createInstanceKey tokenId overlayTypeId) = 1 := by
  cases hres : mapGet st.overlayInstances (createInstanceKey tokenId overlayTypeId) with
  | some g =>
    have hst : renderTokenOverlay st tokenId overlayTypeId = st := by
      unfold renderTokenOverlay getOrCreateGraphicsInstance
      simp [hinit, hreg, hres]
    rw [hst]
    refine ⟨hst, ?_⟩
    have h1 := mapGet_eq_some_countKey _ _ _ hres
    omega
  | none =>
    have hmem : overlayTypeId ∈ st.registeredTypes := List.mem_of_elem_eq_true hreg
    have hst : renderTokenOverlay st tokenId overlayTypeId =
        { st with
            overlayInstances := st.overlayInstances ++
              [(createInstanceKey tokenId overlayTypeId, st.nextGraphicsId)],
            nextGraphicsId := st.nextGraphicsId + 1 } := by
      unfold renderTokenOverlay getOrCreateGraphicsInstance
      simp [hinit, hreg, hmem, hres]
    have h0 := mapGet_eq_none_countKey _ _ hres
    rw [hst]
    constructor
    · unfold renderTokenOverlay getOrCreateGraphicsInstance
      simp [hinit, hreg, mapGet_append_self _ _ _ hres]
    · simp [countKey_append_self, h0]

/-- C7 (witness): rendering `("t1", "hp")` twice from an empty initialised
service keeps a single entry. -/
theorem renderTokenOverlay_idempotent_witness :
    renderTokenOverlay (renderTokenOverlay ⟨true, ["hp"], [], 0⟩ "t1" "hp") "t1" "hp" =
      renderTokenOverlay ⟨true, ["hp"], [], 0⟩ "t1" "hp" ∧
    countKey (renderTokenOverlay ⟨true, ["hp"], [], 0⟩ "t1" "hp").overlayInstances
      (createInstanceKey "t1" "hp") = 1 :=
  renderTokenOverlay_idempotent ⟨true, ["hp"], [], 0⟩ "t1" "hp" rfl rfl (by decide)

/-! ### C10 — prefix-based clearing -/

/-- C10: `clearAllTokenOverlays` removes exactly the instance-map entries
whose key starts with `tokenId ++ "-"`, leaving every other entry
unchanged; consequently, clearing token `"A"` also destroys the entries
of a token `"A-x"`, since `"A-x-hp"` starts with `"A-"`. -/
theorem clearAllTokenOverlays_spec (st : RenderState) (tokenId : String) :
    clearAllTokenOverlays st tokenId =
      { st with overlayInstances :=
          st.overlayInstances.filter (fun p => !(strStartsWith p.1 (tokenId ++ "-"))) } ∧
    clearAllTokenOverlays ⟨true, [], [("A-hp", 0), ("A-x-hp", 1), ("B-hp", 2)], 3⟩ "A" =
      ⟨true, [], [("B-hp", 2)], 3⟩ := by
  constructor
  · rw [clearAllTokenOverlays, clearFold_eq_filter]
    congr 1
    apply List.filter_congr
    intro p hp
    congr 1
    cases hsw : strStartsWith p.1 (tokenId ++ "-") with
    | true =>
      exact List.elem_eq_true_of_mem
        (List.mem_filter.mpr ⟨List.mem_map_of_mem _ hp, hsw⟩)
    | false =>
      cases hc : (findTokenOverlayKeys st tokenId).contains p.1 with
      | false => rfl
      | true =>
        have hmem := List.mem_of_elem_eq_true hc
        have := List.of_mem_filter hmem
        rw [hsw] at this
        exact absurd this (by simp)
  · decide

end ShadowsAndSecrets
